import Mathlib

/-!
Shallow embedding of the LitePCIe Data Link Layer (litepcie/dll) in Lean 4,
together with theorems settling the specification claims.

Each component is translated from the Migen source into an explicit
state-machine: a `State` structure holding the synchronous registers, an
`Input` structure holding the signals sampled in a tick, a pure `step`
function computing the registers committed at the tick boundary, and pure
functions for the combinational outputs.  Machine integers are modelled as
`Nat` with explicit `% 2^w` (or `% depth`) where hardware wrap-around
matters.
-/

namespace LitePCIeDLL

/-! ## Sequence Number Manager (litepcie/dll/sequence.py)

Registers: `tx_counter`, `rx_expected`, `tx_acked_seq`, all 12-bit.
`tx_seq_num` is combinationally `tx_counter`.
-/

/-- Maximum sequence number, `DLL_SEQUENCE_NUM_MAX = 4095`. -/
def DLL_SEQUENCE_NUM_MAX : Nat := 4095

/-- Synchronous registers of `SequenceNumberManager`. -/
structure SeqMgrState where
  tx_counter : Nat
  rx_expected : Nat
  tx_acked_seq : Nat
  deriving Repr, DecidableEq

/-- Reset state of `SequenceNumberManager` (all registers reset to 0). -/
def SeqMgrState.init : SeqMgrState :=
  { tx_counter := 0, rx_expected := 0, tx_acked_seq := 0 }

/-- Input signals of `SequenceNumberManager` sampled in one tick. -/
structure SeqMgrInput where
  tx_alloc : Bool
  rx_seq_num : Nat
  rx_valid : Bool
  ack_seq_num : Nat
  ack_valid : Bool
  deriving Repr, DecidableEq

/-- Wrap-at-4096 increment used by both the TX counter and the RX expected
counter: `If(ctr == DLL_SEQUENCE_NUM_MAX, ctr.eq(0)).Else(ctr.eq(ctr + 1))`. -/
def seqIncr (c : Nat) : Nat :=
  if c = DLL_SEQUENCE_NUM_MAX then 0 else c + 1

/-- One synchronous tick of `SequenceNumberManager` (the `self.sync` blocks). -/
def SeqMgrState.step (s : SeqMgrState) (i : SeqMgrInput) : SeqMgrState :=
  { tx_counter := if i.tx_alloc then seqIncr s.tx_counter else s.tx_counter
    rx_expected := if i.rx_valid then seqIncr s.rx_expected else s.rx_expected
    tx_acked_seq := if i.ack_valid then i.ack_seq_num else s.tx_acked_seq }

/-- Combinational output `tx_seq_num` (`self.comb += tx_seq_num.eq(tx_counter)`).
This is the value a TX allocation observes in the tick it asserts `tx_alloc`. -/
def SeqMgrState.tx_seq_num (s : SeqMgrState) : Nat := s.tx_counter

/-- Combinational output `rx_expected_seq`. -/
def SeqMgrState.rx_expected_seq (s : SeqMgrState) : Nat := s.rx_expected

/-- Combinational output `rx_seq_error`:
`rx_valid & (rx_seq_num != rx_expected)`. -/
def SeqMgrState.rx_seq_error (s : SeqMgrState) (i : SeqMgrInput) : Bool :=
  i.rx_valid && decide (i.rx_seq_num ≠ s.rx_expected)

/-- Run the sequence manager over a list of tick inputs. -/
def SeqMgrState.run (s : SeqMgrState) (l : List SeqMgrInput) : SeqMgrState :=
  l.foldl SeqMgrState.step s

/-- Number of ticks in `l` whose input asserts `tx_alloc` (number of TX
sequence-number allocations performed while processing `l`). -/
def countAllocs (l : List SeqMgrInput) : Nat :=
  (l.filter (fun i => i.tx_alloc)).length

/-! ## Retry Buffer (litepcie/dll/retry_buffer.py)

`depth` must be a power of two (asserted in `__init__`); the pointers are
`Signal(max=depth)`, so for a power-of-two depth their increments wrap
modulo `depth`.  The comparison `read_ptr + 1 == write_ptr` in the replay
logic is evaluated by Migen at widened bit width, i.e. exactly over `Nat`.
The memories are modelled as lists of length `depth` (simulation reset
contents: zero).
-/

/-- Synchronous registers and memories of `RetryBuffer`. -/
structure RetryState where
  writePtr : Nat
  readPtr : Nat
  ackPtr : Nat
  replaying : Bool
  dataMem : List Nat
  seqMem : List Nat
  deriving Repr, DecidableEq

/-- Reset state of a `RetryBuffer` of the given depth. -/
def RetryState.init (depth : Nat) : RetryState :=
  { writePtr := 0, readPtr := 0, ackPtr := 0, replaying := false
    dataMem := List.replicate depth 0, seqMem := List.replicate depth 0 }

/-- Input signals of `RetryBuffer` sampled in one tick.  `ack_seq` and
`nak_seq` are present on the interface but unread by the internal logic. -/
structure RetryInput where
  write_data : Nat
  write_seq : Nat
  write_valid : Bool
  ack_seq : Nat
  ack_valid : Bool
  nak_seq : Nat
  nak_valid : Bool
  replay_ready : Bool
  deriving Repr, DecidableEq

/-- Combinational `next_write_ptr`:
`If(write_ptr == depth - 1, 0).Else(write_ptr + 1)`. -/
def nextWritePtr (depth : Nat) (w : Nat) : Nat :=
  if w = depth - 1 then 0 else w + 1

/-- Combinational output `empty = (write_ptr == ack_ptr)`. -/
def RetryState.empty (s : RetryState) : Bool :=
  decide (s.writePtr = s.ackPtr)

/-- Combinational output `full = (next_write_ptr == ack_ptr)`. -/
def RetryState.full (depth : Nat) (s : RetryState) : Bool :=
  decide (nextWritePtr depth s.writePtr = s.ackPtr)

/-- Combinational output `write_ready = ~full`. -/
def RetryState.write_ready (depth : Nat) (s : RetryState) : Bool :=
  ! s.full depth

/-- Combinational output `replay_valid = replaying & (read_ptr != write_ptr)`. -/
def RetryState.replay_valid (s : RetryState) : Bool :=
  s.replaying && decide (s.readPtr ≠ s.writePtr)

/-- Combinational output `replay_data` (async read of `data_mem` at `read_ptr`). -/
def RetryState.replay_data (s : RetryState) : Nat :=
  s.dataMem.getD s.readPtr 0

/-- Combinational output `replay_seq` (async read of `seq_mem` at `read_ptr`). -/
def RetryState.replay_seq (s : RetryState) : Nat :=
  s.seqMem.getD s.readPtr 0

/-- One synchronous tick of `RetryBuffer`: the write port (guarded by
`write_valid & write_ready`), the NAK/replay pointer logic, and the
ACK pointer advance. -/
def RetryState.step (depth : Nat) (s : RetryState) (i : RetryInput) : RetryState :=
  let doWrite := i.write_valid && s.write_ready depth
  { writePtr := if doWrite then (s.writePtr + 1) % depth else s.writePtr
    readPtr :=
      if i.nak_valid then s.ackPtr
      else if s.replay_valid && i.replay_ready then (s.readPtr + 1) % depth
      else s.readPtr
    replaying :=
      if i.nak_valid then true
      else if s.replay_valid && i.replay_ready then
        (if s.readPtr + 1 = s.writePtr then false else s.replaying)
      else s.replaying
    ackPtr := if i.ack_valid then (s.ackPtr + 1) % depth else s.ackPtr
    dataMem := if doWrite then s.dataMem.set s.writePtr i.write_data else s.dataMem
    seqMem := if doWrite then s.seqMem.set s.writePtr i.write_seq else s.seqMem }

/-- Run the retry buffer over a list of tick inputs. -/
def RetryState.run (depth : Nat) (s : RetryState) (l : List RetryInput) : RetryState :=
  l.foldl (RetryState.step depth) s

/-- A push tick: `write_valid` asserted with the given sequence and data,
all other request inputs deasserted. -/
def pushInput (sq d : Nat) : RetryInput :=
  { write_data := d, write_seq := sq, write_valid := true
    ack_seq := 0, ack_valid := false, nak_seq := 0, nak_valid := false
    replay_ready := false }

/-- An ACK tick: `ack_valid` asserted carrying `sq`. -/
def ackInput (sq : Nat) : RetryInput :=
  { write_data := 0, write_seq := 0, write_valid := false
    ack_seq := sq, ack_valid := true, nak_seq := 0, nak_valid := false
    replay_ready := false }

/-- A NAK tick: `nak_valid` asserted carrying `sq`. -/
def nakInput (sq : Nat) : RetryInput :=
  { write_data := 0, write_seq := 0, write_valid := false
    ack_seq := 0, ack_valid := false, nak_seq := sq, nak_valid := true
    replay_ready := false }

/-- A replay-drain tick: `replay_ready` asserted, no requests. -/
def drainInput : RetryInput :=
  { write_data := 0, write_seq := 0, write_valid := false
    ack_seq := 0, ack_valid := false, nak_seq := 0, nak_valid := false
    replay_ready := true }

/-! ## Theorems: sequence numbers and retry buffer -/

lemma seqIncr_eq_mod (c : Nat) (h : c < 4096) : seqIncr c = (c + 1) % 4096 := by
  unfold seqIncr DLL_SEQUENCE_NUM_MAX
  split
  · omega
  · omega

lemma seqIncr_lt (c : Nat) (h : c < 4096) : seqIncr c < 4096 := by
  unfold seqIncr DLL_SEQUENCE_NUM_MAX
  split <;> omega

lemma run_tx_counter (l : List SeqMgrInput) :
    ∀ s : SeqMgrState, s.tx_counter < 4096 →
      (s.run l).tx_counter = (s.tx_counter + countAllocs l) % 4096 := by
  induction l with
  | nil =>
    intro s hs
    simp [SeqMgrState.run, countAllocs, Nat.mod_eq_of_lt hs]
  | cons i l ih =>
    intro s hs
    have hstep : (s.step i).tx_counter < 4096 := by
      by_cases h : i.tx_alloc <;>
        simp [SeqMgrState.step, h, seqIncr_lt s.tx_counter hs, hs]
    have := ih (s.step i) hstep
    by_cases h : i.tx_alloc
    · simp only [SeqMgrState.run, List.foldl_cons] at this ⊢
      rw [this]
      simp [SeqMgrState.step, h, countAllocs, seqIncr_eq_mod s.tx_counter hs]
      omega
    · simp only [SeqMgrState.run, List.foldl_cons] at this ⊢
      rw [this]
      simp [SeqMgrState.step, h, countAllocs]

/-- Claim C6: starting from reset, the i-th `allocate_tx` (0-indexed) returns
`i mod 4096`: after any input history `l` containing `i` allocation ticks, the
combinational `tx_seq_num` observed by the next allocation is `i % 4096`
(in particular allocations 0 and 4096 both return 0). -/
theorem C6_tx_allocation_returns_index_mod_4096
    (l : List SeqMgrInput) (i : Nat) (h : countAllocs l = i) :
    (SeqMgrState.init.run l).tx_seq_num = i % 4096 := by
  have := run_tx_counter l SeqMgrState.init (by simp [SeqMgrState.init])
  simpa [SeqMgrState.tx_seq_num, SeqMgrState.init, h] using this

/-- Witness for C6 at a concrete history with two allocation ticks. -/
theorem C6_witness :
    (SeqMgrState.init.run
        [{ tx_alloc := true, rx_seq_num := 0, rx_valid := false,
           ack_seq_num := 0, ack_valid := false },
         { tx_alloc := false, rx_seq_num := 0, rx_valid := true,
           ack_seq_num := 0, ack_valid := false },
         { tx_alloc := true, rx_seq_num := 0, rx_valid := false,
           ack_seq_num := 0, ack_valid := false }]).tx_seq_num = 2 % 4096 :=
  C6_tx_allocation_returns_index_mod_4096 _ 2 (by decide)

lemma run_pushes (depth : Nat) (h2 : 2 ≤ depth) (entries : List (Nat × Nat)) :
    ∀ s : RetryState,
      s.replaying = false → s.ackPtr = 0 →
      s.writePtr + entries.length ≤ depth - 1 →
      (s.run depth (entries.map (fun e => pushInput e.1 e.2))).writePtr
          = s.writePtr + entries.length ∧
      (s.run depth (entries.map (fun e => pushInput e.1 e.2))).readPtr = s.readPtr ∧
      (s.run depth (entries.map (fun e => pushInput e.1 e.2))).ackPtr = 0 ∧
      (s.run depth (entries.map (fun e => pushInput e.1 e.2))).replaying = false := by
  induction entries with
  | nil =>
    intro s hrep hack hw
    simp [RetryState.run]
    exact ⟨hack, hrep⟩
  | cons e rest ih =>
    intro s hrep hack hw
    simp only [List.map_cons, List.length_cons] at hw ⊢
    have hwlt : s.writePtr < depth - 1 := by omega
    have hfull : s.full depth = false := by
      simp only [RetryState.full, nextWritePtr, hack, decide_eq_false_iff_not]
      split
      · omega
      · omega
    have hready : s.write_ready depth = true := by
      simp [RetryState.write_ready, hfull]
    have hstep : (s.step depth (pushInput e.1 e.2)).writePtr = s.writePtr + 1 ∧
        (s.step depth (pushInput e.1 e.2)).readPtr = s.readPtr ∧
        (s.step depth (pushInput e.1 e.2)).ackPtr = 0 ∧
        (s.step depth (pushInput e.1 e.2)).replaying = false := by
      simp [RetryState.step, pushInput, hready, RetryState.replay_valid, hrep, hack]
      exact Nat.mod_eq_of_lt (by omega)
    simp only [RetryState.run, List.foldl_cons]
    have := ih (s.step depth (pushInput e.1 e.2)) hstep.2.2.2 hstep.2.2.1
      (by rw [hstep.1]; omega)
    simpa [RetryState.run, hstep.1, hstep.2.1, Nat.add_assoc, Nat.add_comm 1 rest.length]
      using this

/-- Claim C4: `empty` is combinationally `write_ptr == ack_ptr` and `full` is
combinationally `next(write_ptr) == ack_ptr`; starting from the reset state,
`depth - 1` pushes are each accepted without `full` being reported, after them
the buffer reports `full` (and a further push attempt is refused with the
state unchanged, losing no data), and a single ack clears `full`. -/
theorem C4_retry_buffer_capacity
    (depth : Nat) (hpow : ∃ m, depth = 2 ^ m) (h2 : 2 ≤ depth)
    (entries : List (Nat × Nat)) (hlen : entries.length = depth - 1) :
    (∀ s : RetryState,
        (s.empty = true ↔ s.writePtr = s.ackPtr) ∧
        (s.full depth = true ↔ nextWritePtr depth s.writePtr = s.ackPtr)) ∧
    (∀ j, j < depth - 1 →
      ((RetryState.init depth).run depth
          ((entries.take j).map (fun e => pushInput e.1 e.2))).full depth = false) ∧
    (((RetryState.init depth).run depth
        (entries.map (fun e => pushInput e.1 e.2))).full depth = true) ∧
    (((RetryState.init depth).run depth
        (entries.map (fun e => pushInput e.1 e.2))).write_ready depth = false) ∧
    (∀ sq d,
      ((RetryState.init depth).run depth
          (entries.map (fun e => pushInput e.1 e.2))).step depth (pushInput sq d)
        = (RetryState.init depth).run depth (entries.map (fun e => pushInput e.1 e.2))) ∧
    ((((RetryState.init depth).run depth
        (entries.map (fun e => pushInput e.1 e.2))).step depth (ackInput 0)).full depth
      = false) := by
  have hinit : (RetryState.init depth).replaying = false ∧
      (RetryState.init depth).ackPtr = 0 ∧ (RetryState.init depth).writePtr = 0 := by
    simp [RetryState.init]
  set t := (RetryState.init depth).run depth (entries.map (fun e => pushInput e.1 e.2))
    with ht
  have hfullrun := run_pushes depth h2 entries (RetryState.init depth)
    hinit.1 hinit.2.1 (by rw [hinit.2.2, hlen]; omega)
  rw [hinit.2.2, hlen, ← ht] at hfullrun
  obtain ⟨hw1, hr1, ha1, hp1⟩ := hfullrun
  rw [Nat.zero_add] at hw1
  have hfull : t.full depth = true := by
    simp [RetryState.full, hw1, ha1, nextWritePtr]
  refine ⟨?_, ?_, hfull, ?_, ?_, ?_⟩
  · intro s
    constructor
    · simp [RetryState.empty]
    · simp [RetryState.full]
  · intro j hj
    have hlentake : (entries.take j).length = j := by
      rw [List.length_take, hlen]; omega
    have htake := run_pushes depth h2 (entries.take j) (RetryState.init depth)
      hinit.1 hinit.2.1 (by rw [hinit.2.2, hlentake]; omega)
    rw [hinit.2.2, hlentake] at htake
    simp only [RetryState.full, htake.1, htake.2.2.1, nextWritePtr,
      decide_eq_false_iff_not]
    split
    · omega
    · omega
  · simp [RetryState.write_ready, hfull]
  · intro sq d
    have hready : t.write_ready depth = false := by
      simp [RetryState.write_ready, hfull]
    simp [RetryState.step, pushInput, hready, RetryState.replay_valid]
  · have hsw : (t.step depth (ackInput 0)).writePtr = depth - 1 := by
      simp [RetryState.step, ackInput, hw1]
    have hsa : (t.step depth (ackInput 0)).ackPtr = 1 := by
      simp [RetryState.step, ackInput, ha1, Nat.mod_eq_of_lt (show 1 < depth by omega)]
    simp [RetryState.full, hsw, hsa, nextWritePtr]

/-- Witness for C4 at depth 4 with three concrete entries. -/
theorem C4_witness :
    (∀ s : RetryState,
        (s.empty = true ↔ s.writePtr = s.ackPtr) ∧
        (s.full 4 = true ↔ nextWritePtr 4 s.writePtr = s.ackPtr)) ∧
    (∀ j, j < 3 →
      ((RetryState.init 4).run 4
          (([(0, 10), (1, 11), (2, 12)].take j).map
            (fun e => pushInput e.1 e.2))).full 4 = false) ∧
    (((RetryState.init 4).run 4
        ([(0, 10), (1, 11), (2, 12)].map (fun e => pushInput e.1 e.2))).full 4 = true) ∧
    (((RetryState.init 4).run 4
        ([(0, 10), (1, 11), (2, 12)].map (fun e => pushInput e.1 e.2))).write_ready 4
      = false) ∧
    (∀ sq d,
      ((RetryState.init 4).run 4
          ([(0, 10), (1, 11), (2, 12)].map (fun e => pushInput e.1 e.2))).step 4
          (pushInput sq d)
        = (RetryState.init 4).run 4
            ([(0, 10), (1, 11), (2, 12)].map (fun e => pushInput e.1 e.2))) ∧
    ((((RetryState.init 4).run 4
        ([(0, 10), (1, 11), (2, 12)].map (fun e => pushInput e.1 e.2))).step 4
        (ackInput 0)).full 4 = false) :=
  C4_retry_buffer_capacity 4 ⟨2, by decide⟩ (by decide) [(0, 10), (1, 11), (2, 12)]
    (by decide)

/-- Claim C5, counterexample: with depth 4, push entries with sequence
numbers 0 and 1, then process an ACK carrying sequence 1.  The entry with
sequence 1 is stored at slot 1, so "just past" it is slot 2; the code instead
advances the ack pointer by exactly one, to slot 1, because the ACK logic
never reads `ack_seq`. -/
theorem C5_counterexample :
    ((RetryState.init 4).run 4 [pushInput 0 100, pushInput 1 101, ackInput 1]).seqMem.getD
        1 0 = 1 ∧
    ((RetryState.init 4).run 4 [pushInput 0 100, pushInput 1 101, ackInput 1]).ackPtr
      = 1 ∧
    ((RetryState.init 4).run 4 [pushInput 0 100, pushInput 1 101, ackInput 1]).ackPtr
      ≠ 2 := by
  decide

/-- Claim C5, amended: processing an ACK advances the ack (release) pointer by
exactly one slot (mod depth), independently of the sequence number the ACK
carries (which the logic never reads); this frees the oldest outstanding slot,
and coincides with "just past the entry whose sequence is seq" only when acks
arrive in push order, one per stored entry. -/
theorem C5_ack_advances_one_slot
    (depth : Nat) (s : RetryState) (i : RetryInput) (h : i.ack_valid = true) :
    (s.step depth i).ackPtr = (s.ackPtr + 1) % depth ∧
    (∀ x, s.step depth { i with ack_seq := x } = s.step depth i) := by
  constructor
  · simp [RetryState.step, h]
  · intro x
    simp [RetryState.step]

/-- Witness for the amended C5 at a concrete state and input. -/
theorem C5_witness :
    (((RetryState.init 4).run 4 [pushInput 0 100, pushInput 1 101]).step 4
        (ackInput 7)).ackPtr
      = (((RetryState.init 4).run 4 [pushInput 0 100, pushInput 1 101]).ackPtr + 1) % 4 ∧
    (∀ x,
      ((RetryState.init 4).run 4 [pushInput 0 100, pushInput 1 101]).step 4
          { ackInput 7 with ack_seq := x }
        = ((RetryState.init 4).run 4 [pushInput 0 100, pushInput 1 101]).step 4
            (ackInput 7)) :=
  C5_ack_advances_one_slot 4 _ (ackInput 7) rfl

/-- Claim C2: from reset (depth 8), pushing sequences 0, 1, 2 with arbitrary
payloads, acking once, then naking, puts the buffer in replay mode; the replay
outputs are exactly the entries for sequences 1 and 2 in that order with the
pushed payloads, and replay mode clears automatically afterwards. -/
theorem C2_retry_replay_after_nak (d0 d1 d2 : Nat) :
    (((RetryState.init 8).run 8
        [pushInput 0 d0, pushInput 1 d1, pushInput 2 d2, ackInput 0,
          nakInput 0]).replaying = true) ∧
    (((RetryState.init 8).run 8
        [pushInput 0 d0, pushInput 1 d1, pushInput 2 d2, ackInput 0,
          nakInput 0]).replay_valid = true) ∧
    (((RetryState.init 8).run 8
        [pushInput 0 d0, pushInput 1 d1, pushInput 2 d2, ackInput 0,
          nakInput 0]).replay_seq = 1) ∧
    (((RetryState.init 8).run 8
        [pushInput 0 d0, pushInput 1 d1, pushInput 2 d2, ackInput 0,
          nakInput 0]).replay_data = d1) ∧
    (((RetryState.init 8).run 8
        [pushInput 0 d0, pushInput 1 d1, pushInput 2 d2, ackInput 0,
          nakInput 0, drainInput]).replay_valid = true) ∧
    (((RetryState.init 8).run 8
        [pushInput 0 d0, pushInput 1 d1, pushInput 2 d2, ackInput 0,
          nakInput 0, drainInput]).replay_seq = 2) ∧
    (((RetryState.init 8).run 8
        [pushInput 0 d0, pushInput 1 d1, pushInput 2 d2, ackInput 0,
          nakInput 0, drainInput]).replay_data = d2) ∧
    (((RetryState.init 8).run 8
        [pushInput 0 d0, pushInput 1 d1, pushInput 2 d2, ackInput 0,
          nakInput 0, drainInput, drainInput]).replaying = false) ∧
    (((RetryState.init 8).run 8
        [pushInput 0 d0, pushInput 1 d1, pushInput 2 d2, ackInput 0,
          nakInput 0, drainInput, drainInput]).replay_valid = false) := by
  refine ⟨rfl, rfl, rfl, rfl, rfl, rfl, rfl, rfl, rfl⟩

/-! ## LTSSM (litepcie/dll/ltssm.py)

The FSM states correspond to the `fsm.act` blocks; states guarded by
`detailed_substates` or capability flags exist in the state type but are
unreachable when the corresponding configuration flag is off.  The
capability signals (`gen2_capable`, `eq_capable`, `l0s_capable`,
`l1_capable`, `l2_capable`) are reset-valued signals never driven by the
logic, modelled as configuration constants.  The request signals
(`enter_l1`, `exit_l0s`, `force_equalization`, ...) are driven by the
environment; they are modelled as fresh inputs each tick, which includes
every behaviour of the corresponding registers.  The lane-reversal map,
being purely combinational from inputs, is not part of the state.
-/

/-- The `fsm.act` blocks of `LTSSM`. -/
inductive LtssmFsm where
  | detect | polling | pollingActive | pollingConfiguration | pollingCompliance
  | configuration | l0 | recovery | recoveryRcvrLock | recoveryRcvrCfg
  | recoveryIdle | recoverySpeed | recoveryEqPhase0 | recoveryEqPhase1
  | recoveryEqPhase2 | recoveryEqPhase3 | l0sIdle | l0sFts | l1 | l2
  deriving Repr, DecidableEq

/-- Constructor parameters of `LTSSM` (reset values of the capability
signals plus the `detailed_substates` flag and the lane count). -/
structure LtssmConfig where
  gen2_capable : Bool
  eq_capable : Bool
  l0s_capable : Bool
  l1_capable : Bool
  l2_capable : Bool
  detailed_substates : Bool
  num_lanes : Nat
  deriving Repr, DecidableEq

/-- Synchronous registers of `LTSSM`. -/
structure LtssmState where
  fsm : LtssmFsm
  link_up : Bool
  current_state : Nat
  link_speed : Nat
  link_width : Nat
  configured_lanes : Nat
  send_ts1 : Bool
  send_ts2 : Bool
  send_fts : Bool
  tx_elecidle : Bool
  eq_phase : Nat
  eq_phase_timer : Nat
  fts_counter : Nat
  ts1_rx_count : Nat
  deriving Repr, DecidableEq

/-- Reset state of `LTSSM` (`reset_state="DETECT"`, `link_speed` reset 1,
`tx_elecidle` reset 1, `link_width` reset `lanes`, all else 0). -/
def LtssmState.init (cfg : LtssmConfig) : LtssmState :=
  { fsm := .detect, link_up := false, current_state := 0, link_speed := 1
    link_width := cfg.num_lanes, configured_lanes := 0
    send_ts1 := false, send_ts2 := false, send_fts := false, tx_elecidle := true
    eq_phase := 0, eq_phase_timer := 0, fts_counter := 0, ts1_rx_count := 0 }

/-- Input signals of `LTSSM` sampled in one tick. -/
structure LtssmInput where
  ts1_detected : Bool
  ts2_detected : Bool
  rx_elecidle : Bool
  rx_compliance_request : Bool
  rx_rate_id : Nat
  rx_link_width : Nat
  enter_l0s : Bool
  exit_l0s : Bool
  enter_l1 : Bool
  exit_l1 : Bool
  enter_l2 : Bool
  exit_l2 : Bool
  force_equalization : Bool
  deriving Repr, DecidableEq

/-- Combinational `speed_change_required`:
`gen2_capable & (rx_rate_id >= 2) & (link_speed == 1)`. -/
def speedChangeRequired (cfg : LtssmConfig) (s : LtssmState) (i : LtssmInput) : Bool :=
  cfg.gen2_capable && decide (2 ≤ i.rx_rate_id) && decide (s.link_speed = 1)

/-- Combinational `negotiated_width`:
`Mux(rx_link_width < num_lanes, rx_link_width, num_lanes)`. -/
def negotiatedWidth (cfg : LtssmConfig) (i : LtssmInput) : Nat :=
  if i.rx_link_width < cfg.num_lanes then i.rx_link_width else cfg.num_lanes

/-- One synchronous tick of `LTSSM`: the per-state `NextValue`/`NextState`
blocks, with a later `NextValue` to the same signal overriding an earlier one
(Migen semantics), counters wrapping at their register widths. -/
def LtssmState.step (cfg : LtssmConfig) (s : LtssmState) (i : LtssmInput) : LtssmState :=
  match s.fsm with
  | .detect =>
      { s with
        current_state := 0, tx_elecidle := true, link_up := false,
        fsm := if !i.rx_elecidle then
            (if cfg.detailed_substates then .pollingActive else .polling)
          else .detect }
  | .polling =>
      { s with
        current_state := 1, tx_elecidle := false,
        send_ts1 := true, send_ts2 := false,
        fsm := if i.ts1_detected then .configuration else .polling }
  | .pollingActive =>
      { s with
        current_state := 16, tx_elecidle := false,
        send_ts1 := true, send_ts2 := false,
        ts1_rx_count :=
          if i.rx_compliance_request then 0
          else if 8 ≤ s.ts1_rx_count then 0
          else if i.ts1_detected then (s.ts1_rx_count + 1) % 16 else s.ts1_rx_count,
        fsm :=
          if i.rx_compliance_request then .pollingCompliance
          else if 8 ≤ s.ts1_rx_count then .pollingConfiguration
          else .pollingActive }
  | .pollingConfiguration =>
      { s with
        current_state := 17, send_ts1 := false, send_ts2 := true,
        fsm := if i.ts2_detected then .configuration else .pollingConfiguration }
  | .pollingCompliance =>
      { s with
        current_state := 18, send_ts1 := true, fsm := .pollingCompliance }
  | .configuration =>
      { s with
        current_state := 2, send_ts1 := false, send_ts2 := true,
        tx_elecidle := false,
        configured_lanes := negotiatedWidth cfg i,
        link_width := negotiatedWidth cfg i,
        fsm := if i.ts2_detected then .l0 else .configuration }
  | .l0 =>
      { s with
        current_state := 3, link_up := true,
        send_ts1 := false, send_ts2 := false, tx_elecidle := false,
        fsm :=
          if cfg.l1_capable && i.enter_l1 then .l1
          else if cfg.l0s_capable && i.enter_l0s then .l0sIdle
          else if speedChangeRequired cfg s i then .recoverySpeed
          else if i.rx_elecidle then
            (if cfg.detailed_substates then .recoveryRcvrLock else .recovery)
          else .l0 }
  | .recovery =>
      { s with
        current_state := 4, link_up := false,
        send_ts1 := true, send_ts2 := false, tx_elecidle := false,
        eq_phase_timer :=
          if cfg.eq_capable && i.force_equalization then 0 else s.eq_phase_timer,
        fsm :=
          if cfg.eq_capable && i.force_equalization then .recoveryEqPhase0
          else if !i.rx_elecidle && i.ts1_detected then .l0
          else .recovery }
  | .recoveryRcvrLock =>
      { s with
        current_state := 19, link_up := false,
        send_ts1 := true, send_ts2 := false, tx_elecidle := false,
        fsm := if !i.rx_elecidle && i.ts1_detected then .recoveryRcvrCfg
          else .recoveryRcvrLock }
  | .recoveryRcvrCfg =>
      { s with
        current_state := 20, send_ts1 := true,
        fsm := if i.ts1_detected then .recoveryIdle else .recoveryRcvrCfg }
  | .recoveryIdle =>
      { s with
        current_state := 21, send_ts1 := false, send_ts2 := true,
        fsm := if i.ts2_detected then .l0 else .recoveryIdle }
  | .recoverySpeed =>
      { s with
        current_state := 5, link_up := false, link_speed := 2,
        send_ts1 := true, send_ts2 := false, tx_elecidle := false,
        fsm := if i.ts1_detected then .l0 else .recoverySpeed }
  | .recoveryEqPhase0 =>
      { s with
        current_state := 6, eq_phase := 0, send_ts1 := true,
        eq_phase_timer :=
          if 100 < s.eq_phase_timer then 0 else (s.eq_phase_timer + 1) % 65536,
        fsm := if 100 < s.eq_phase_timer then .recoveryEqPhase1
          else .recoveryEqPhase0 }
  | .recoveryEqPhase1 =>
      { s with
        current_state := 7, eq_phase := 1,
        eq_phase_timer :=
          if 100 < s.eq_phase_timer then 0 else (s.eq_phase_timer + 1) % 65536,
        fsm := if 100 < s.eq_phase_timer then .recoveryEqPhase2
          else .recoveryEqPhase1 }
  | .recoveryEqPhase2 =>
      { s with
        current_state := 8, eq_phase := 2,
        eq_phase_timer :=
          if 100 < s.eq_phase_timer then 0 else (s.eq_phase_timer + 1) % 65536,
        fsm := if 100 < s.eq_phase_timer then .recoveryEqPhase3
          else .recoveryEqPhase2 }
  | .recoveryEqPhase3 =>
      { s with
        current_state := 9, eq_phase := 3,
        eq_phase_timer := (s.eq_phase_timer + 1) % 65536,
        fsm := if 100 < s.eq_phase_timer then .l0 else .recoveryEqPhase3 }
  | .l0sIdle =>
      { s with
        current_state := 10, link_up := true, tx_elecidle := true,
        fts_counter := if i.exit_l0s then 0 else s.fts_counter,
        fsm := if i.exit_l0s then .l0sFts else .l0sIdle }
  | .l0sFts =>
      { s with
        current_state := 11, tx_elecidle := false,
        send_fts := if 128 ≤ s.fts_counter then false else true,
        fts_counter := (s.fts_counter + 1) % 256,
        fsm := if 128 ≤ s.fts_counter then .l0 else .l0sFts }
  | .l1 =>
      { s with
        current_state := 12, link_up := false, tx_elecidle := true,
        fsm :=
          if cfg.l2_capable && i.enter_l2 then .l2
          else if i.exit_l1 then
            (if cfg.detailed_substates then .recoveryRcvrLock else .recovery)
          else .l1 }
  | .l2 =>
      { s with
        current_state := 13, link_up := false, tx_elecidle := true,
        fsm := if i.exit_l2 then .detect else .l2 }

/-- States reachable from reset under some input sequence. -/
inductive LtssmReachable (cfg : LtssmConfig) : LtssmState → Prop where
  | init : LtssmReachable cfg (LtssmState.init cfg)
  | step (s : LtssmState) (i : LtssmInput) :
      LtssmReachable cfg s → LtssmReachable cfg (s.step cfg i)

/-- An LTSSM input with every request deasserted. -/
def ltssmQuietInput : LtssmInput :=
  { ts1_detected := false, ts2_detected := false, rx_elecidle := false
    rx_compliance_request := false, rx_rate_id := 0, rx_link_width := 1
    enter_l0s := false, exit_l0s := false, enter_l1 := false, exit_l1 := false
    enter_l2 := false, exit_l2 := false, force_equalization := false }

/-- A Gen1, single-lane configuration without optional substates
(the constructor defaults). -/
def ltssmCfgDefault : LtssmConfig :=
  { gen2_capable := false, eq_capable := false, l0s_capable := false
    l1_capable := false, l2_capable := false, detailed_substates := false
    num_lanes := 1 }

/-- Run the LTSSM over a list of tick inputs. -/
def LtssmState.run (cfg : LtssmConfig) (s : LtssmState) (l : List LtssmInput) :
    LtssmState :=
  l.foldl (LtssmState.step cfg) s

/-! ## Theorems: LTSSM -/

lemma ltssmRun_reachable_of (cfg : LtssmConfig) (l : List LtssmInput) :
    ∀ s, LtssmReachable cfg s → LtssmReachable cfg (s.run cfg l) := by
  induction l with
  | nil => intro s hs; exact hs
  | cons i l ih =>
    intro s hs
    exact ih _ (LtssmReachable.step s i hs)

lemma ltssm_step_clears_link_up (cfg : LtssmConfig) (s : LtssmState) (i : LtssmInput)
    (h : s.fsm = .recovery ∨ s.fsm = .recoveryRcvrLock ∨ s.fsm = .recoverySpeed ∨
      s.fsm = .l1) :
    (s.step cfg i).link_up = false := by
  rcases h with h | h | h | h <;> simp [LtssmState.step, h]

lemma ltssm_linkup_allowed (cfg : LtssmConfig) (s : LtssmState)
    (h : LtssmReachable cfg s) :
    s.link_up = true →
      s.fsm = .l0 ∨ s.fsm = .l0sIdle ∨ s.fsm = .l0sFts ∨ s.fsm = .recovery ∨
      s.fsm = .recoveryRcvrLock ∨ s.fsm = .recoverySpeed ∨ s.fsm = .l1 := by
  induction h with
  | init => intro hl; simp [LtssmState.init] at hl
  | step s i hs ih =>
    cases hf : s.fsm
    case detect => simp [LtssmState.step, hf]
    case polling =>
      intro hl
      simp only [LtssmState.step, hf] at hl
      have h2 := ih hl
      rw [hf] at h2
      simp at h2
    case pollingActive =>
      intro hl
      simp only [LtssmState.step, hf] at hl
      have h2 := ih hl
      rw [hf] at h2
      simp at h2
    case pollingConfiguration =>
      intro hl
      simp only [LtssmState.step, hf] at hl
      have h2 := ih hl
      rw [hf] at h2
      simp at h2
    case pollingCompliance =>
      intro hl
      simp only [LtssmState.step, hf] at hl
      have h2 := ih hl
      rw [hf] at h2
      simp at h2
    case configuration =>
      intro hl
      simp only [LtssmState.step, hf] at hl
      have h2 := ih hl
      rw [hf] at h2
      simp at h2
    case l0 =>
      intro hl
      simp only [LtssmState.step, hf]
      split_ifs <;> simp
    case recovery => simp [LtssmState.step, hf]
    case recoveryRcvrLock => simp [LtssmState.step, hf]
    case recoveryRcvrCfg =>
      intro hl
      simp only [LtssmState.step, hf] at hl
      have h2 := ih hl
      rw [hf] at h2
      simp at h2
    case recoveryIdle =>
      intro hl
      simp only [LtssmState.step, hf] at hl
      have h2 := ih hl
      rw [hf] at h2
      simp at h2
    case recoverySpeed => simp [LtssmState.step, hf]
    case recoveryEqPhase0 =>
      intro hl
      simp only [LtssmState.step, hf] at hl
      have h2 := ih hl
      rw [hf] at h2
      simp at h2
    case recoveryEqPhase1 =>
      intro hl
      simp only [LtssmState.step, hf] at hl
      have h2 := ih hl
      rw [hf] at h2
      simp at h2
    case recoveryEqPhase2 =>
      intro hl
      simp only [LtssmState.step, hf] at hl
      have h2 := ih hl
      rw [hf] at h2
      simp at h2
    case recoveryEqPhase3 =>
      intro hl
      simp only [LtssmState.step, hf] at hl
      have h2 := ih hl
      rw [hf] at h2
      simp at h2
    case l0sIdle =>
      intro hl
      simp only [LtssmState.step, hf]
      split_ifs <;> simp
    case l0sFts =>
      intro hl
      simp only [LtssmState.step, hf]
      split_ifs <;> simp
    case l1 => simp [LtssmState.step, hf]
    case l2 => simp [LtssmState.step, hf]

/-- Claim C8, counterexample: with the default Gen1 configuration, driving the
LTSSM from reset through Detect → Polling → Configuration → L0 and then
asserting `rx_elecidle` leaves it, one tick later, in RECOVERY with `link_up`
still asserted: `link_up` is a registered output that lags the state by one
tick, so it is not true only in L0/L0s. -/
theorem C8_counterexample :
    LtssmReachable ltssmCfgDefault
      ((LtssmState.init ltssmCfgDefault).run ltssmCfgDefault
        [ltssmQuietInput,
         { ltssmQuietInput with ts1_detected := true },
         { ltssmQuietInput with ts2_detected := true },
         { ltssmQuietInput with rx_elecidle := true }]) ∧
    ((LtssmState.init ltssmCfgDefault).run ltssmCfgDefault
        [ltssmQuietInput,
         { ltssmQuietInput with ts1_detected := true },
         { ltssmQuietInput with ts2_detected := true },
         { ltssmQuietInput with rx_elecidle := true }]).fsm = .recovery ∧
    ((LtssmState.init ltssmCfgDefault).run ltssmCfgDefault
        [ltssmQuietInput,
         { ltssmQuietInput with ts1_detected := true },
         { ltssmQuietInput with ts2_detected := true },
         { ltssmQuietInput with rx_elecidle := true }]).link_up = true :=
  ⟨ltssmRun_reachable_of ltssmCfgDefault _ _ LtssmReachable.init, by decide, by decide⟩

/-- Claim C8, amended: in every reachable LTSSM state, `link_up` can be true
only in L0, an L0s substate, or — because `link_up` is registered and lags the
state by one tick — during the first tick of RECOVERY, RECOVERY.RcvrLock,
RECOVERY.Speed or L1 entered directly from L0; from any of those four states
every next step drives `link_up` false, so in Detect, Polling, Configuration,
the remaining Recovery substates and L2 `link_up` is false. -/
theorem C8_link_up_only_l0_l0s_or_one_tick_after
    (cfg : LtssmConfig) (s : LtssmState) (h : LtssmReachable cfg s) :
    (s.link_up = true →
      s.fsm = .l0 ∨ s.fsm = .l0sIdle ∨ s.fsm = .l0sFts ∨ s.fsm = .recovery ∨
      s.fsm = .recoveryRcvrLock ∨ s.fsm = .recoverySpeed ∨ s.fsm = .l1) ∧
    (∀ i : LtssmInput,
      (s.fsm = .recovery ∨ s.fsm = .recoveryRcvrLock ∨ s.fsm = .recoverySpeed ∨
        s.fsm = .l1) →
      (s.step cfg i).link_up = false) :=
  ⟨ltssm_linkup_allowed cfg s h, fun i hm => ltssm_step_clears_link_up cfg s i hm⟩

/-- Witness for the amended C8 at the (reachable) reset state. -/
theorem C8_witness :
    ((LtssmState.init ltssmCfgDefault).link_up = true →
      (LtssmState.init ltssmCfgDefault).fsm = .l0 ∨
      (LtssmState.init ltssmCfgDefault).fsm = .l0sIdle ∨
      (LtssmState.init ltssmCfgDefault).fsm = .l0sFts ∨
      (LtssmState.init ltssmCfgDefault).fsm = .recovery ∨
      (LtssmState.init ltssmCfgDefault).fsm = .recoveryRcvrLock ∨
      (LtssmState.init ltssmCfgDefault).fsm = .recoverySpeed ∨
      (LtssmState.init ltssmCfgDefault).fsm = .l1) ∧
    (∀ i : LtssmInput,
      ((LtssmState.init ltssmCfgDefault).fsm = .recovery ∨
        (LtssmState.init ltssmCfgDefault).fsm = .recoveryRcvrLock ∨
        (LtssmState.init ltssmCfgDefault).fsm = .recoverySpeed ∨
        (LtssmState.init ltssmCfgDefault).fsm = .l1) →
      ((LtssmState.init ltssmCfgDefault).step ltssmCfgDefault i).link_up = false) :=
  C8_link_up_only_l0_l0s_or_one_tick_after ltssmCfgDefault _ LtssmReachable.init

lemma ltssm_speed_one_or_two (cfg : LtssmConfig) (s : LtssmState)
    (h : LtssmReachable cfg s) : s.link_speed = 1 ∨ s.link_speed = 2 := by
  induction h with
  | init => left; rfl
  | step s i hs ih =>
    cases hf : s.fsm <;> simp only [LtssmState.step, hf] <;>
      first
        | simp
        | exact ih

lemma ltssm_speed_written_only_in_recovery_speed (cfg : LtssmConfig)
    (s : LtssmState) (i : LtssmInput) :
    (s.step cfg i).link_speed
      = if s.fsm = .recoverySpeed then 2 else s.link_speed := by
  cases hf : s.fsm <;> simp [LtssmState.step, hf]

/-- Claim C10: `link_speed` resets to 1 (Gen1) and is assigned only in the
RECOVERY_SPEED state, where it is set to 2 (Gen2); along every reachable
execution it stays in {1, 2} and is monotonically non-decreasing, so it never
returns to Gen1 except by a full reset of the state machine. -/
theorem C10_link_speed_monotone
    (cfg : LtssmConfig) (s : LtssmState) (h : LtssmReachable cfg s) :
    (LtssmState.init cfg).link_speed = 1 ∧
    (s.link_speed = 1 ∨ s.link_speed = 2) ∧
    (∀ i, (s.step cfg i).link_speed
        = if s.fsm = .recoverySpeed then 2 else s.link_speed) ∧
    (∀ i, s.link_speed ≤ (s.step cfg i).link_speed) := by
  refine ⟨rfl, ltssm_speed_one_or_two cfg s h, fun i =>
    ltssm_speed_written_only_in_recovery_speed cfg s i, fun i => ?_⟩
  rw [ltssm_speed_written_only_in_recovery_speed cfg s i]
  rcases ltssm_speed_one_or_two cfg s h with h1 | h1 <;> rw [h1] <;> split <;> omega

/-- Witness for C10 at the (reachable) reset state. -/
theorem C10_witness :
    (LtssmState.init ltssmCfgDefault).link_speed = 1 ∧
    ((LtssmState.init ltssmCfgDefault).link_speed = 1 ∨
      (LtssmState.init ltssmCfgDefault).link_speed = 2) ∧
    (∀ i, ((LtssmState.init ltssmCfgDefault).step ltssmCfgDefault i).link_speed
        = if (LtssmState.init ltssmCfgDefault).fsm = .recoverySpeed then 2
          else (LtssmState.init ltssmCfgDefault).link_speed) ∧
    (∀ i, (LtssmState.init ltssmCfgDefault).link_speed ≤
        ((LtssmState.init ltssmCfgDefault).step ltssmCfgDefault i).link_speed) :=
  C10_link_speed_monotone ltssmCfgDefault _ LtssmReachable.init

/-! ## PIPE TX Packetizer / RX Depacketizer (litepcie/dll/pipe.py)

The packetizer's `pipe_tx_data`/`pipe_tx_datak` are registered outputs
(assigned with `NextValue`), so the symbol transmitted at a tick is the one
committed by the previous tick's step.  The depacketizer's `source` endpoint
is combinational in the `DATA` state.  `PIPEInterface` additionally drives
`pipe_tx_elecidle` combinationally from `~sink.valid`.
-/

/-- K-character `COM` (comma, alignment). -/
def PIPE_K28_5_COM : Nat := 0xBC
/-- K-character `SKP` (skip, clock compensation). -/
def PIPE_K28_0_SKP : Nat := 0x1C
/-- K-character `STP` (start TLP). -/
def PIPE_K27_7_STP : Nat := 0xFB
/-- K-character `SDP` (start DLLP). -/
def PIPE_K28_2_SDP : Nat := 0x5C
/-- K-character `END` (end packet). -/
def PIPE_K29_7_END : Nat := 0xFD

/-- FSM states of `PIPETXPacketizer`. -/
inductive TxPktFsm where
  | idle | data | endTx
  deriving Repr, DecidableEq

/-- Synchronous registers of `PIPETXPacketizer`. -/
structure TxPktState where
  fsm : TxPktFsm
  pipe_tx_data : Nat
  pipe_tx_datak : Bool
  byte_counter : Nat
  deriving Repr, DecidableEq

/-- Reset state of `PIPETXPacketizer`. -/
def TxPktState.init : TxPktState :=
  { fsm := .idle, pipe_tx_data := 0, pipe_tx_datak := false, byte_counter := 0 }

/-- Input signals of `PIPETXPacketizer` (`sink` endpoint) in one tick. -/
structure TxPktInput where
  valid : Bool
  first : Bool
  dat : Nat
  deriving Repr, DecidableEq

/-- Combinational `is_dllp`: `(first_byte & 0xC0) == 0x00` on
`first_byte = sink.dat[0:8]`. -/
def isDllp (dat : Nat) : Bool :=
  decide (Nat.land (dat % 256) 0xC0 = 0)

/-- `byte_array[idx]`: byte slice `sink.dat[8*idx : 8*idx+8]`
(little-endian byte selection). -/
def txByteSel (dat idx : Nat) : Nat :=
  (dat >>> (8 * idx)) % 256

/-- The start-delimiter symbol chosen in the `IDLE` state: `SDP` for a DLLP,
`STP` for a TLP. -/
def startSymbol (dat : Nat) : Nat :=
  if isDllp dat then PIPE_K28_2_SDP else PIPE_K27_7_STP

/-- One synchronous tick of `PIPETXPacketizer`. -/
def TxPktState.step (s : TxPktState) (i : TxPktInput) : TxPktState :=
  match s.fsm with
  | .idle =>
      if i.valid && i.first then
        { s with
          pipe_tx_data := startSymbol i.dat,
          pipe_tx_datak := true,
          byte_counter := 0,
          fsm := .data }
      else
        { s with pipe_tx_data := 0, pipe_tx_datak := false }
  | .data =>
      { s with
        pipe_tx_data := txByteSel i.dat s.byte_counter,
        pipe_tx_datak := false,
        byte_counter := (s.byte_counter + 1) % 8,
        fsm := if s.byte_counter = 7 then .endTx else .data }
  | .endTx =>
      { s with pipe_tx_data := PIPE_K29_7_END, pipe_tx_datak := true, fsm := .idle }

/-- Run the packetizer over a list of tick inputs, recording the registered
`(pipe_tx_data, pipe_tx_datak)` pair committed by each tick. -/
def TxPktState.runOut (s : TxPktState) : List TxPktInput → List (Nat × Bool)
  | [] => []
  | i :: rest =>
      ((s.step i).pipe_tx_data, (s.step i).pipe_tx_datak) :: (s.step i).runOut rest

/-- Combinational `pipe_tx_elecidle` of `PIPEInterface`:
`If(~sink.valid, elecidle.eq(1))`, default 0. -/
def pipeTxElecidle (valid : Bool) : Bool := ! valid

/-- FSM states of `PIPERXDepacketizer`. -/
inductive RxPktFsm where
  | idle | data
  deriving Repr, DecidableEq

/-- Synchronous registers of `PIPERXDepacketizer`. -/
structure RxPktState where
  fsm : RxPktFsm
  is_tlp : Bool
  byte_counter : Nat
  data_buffer : Nat
  deriving Repr, DecidableEq

/-- Reset state of `PIPERXDepacketizer`. -/
def RxPktState.init : RxPktState :=
  { fsm := .idle, is_tlp := false, byte_counter := 0, data_buffer := 0 }

/-- Input symbol of `PIPERXDepacketizer` in one tick. -/
structure RxPktInput where
  pipe_rx_data : Nat
  pipe_rx_datak : Bool
  deriving Repr, DecidableEq

/-- Replace byte `idx` of `buf` with the low 8 bits of `x`
(the slice assignment `NextValue(data_buffer[8*idx:8*idx+8], x)`). -/
def setByte (buf idx x : Nat) : Nat :=
  buf % 2 ^ (8 * idx) + (x % 256) * 2 ^ (8 * idx)
    + (buf >>> (8 * (idx + 1))) * 2 ^ (8 * (idx + 1))

/-- One synchronous tick of `PIPERXDepacketizer`. -/
def RxPktState.step (s : RxPktState) (i : RxPktInput) : RxPktState :=
  match s.fsm with
  | .idle =>
      if i.pipe_rx_datak then
        if i.pipe_rx_data = PIPE_K27_7_STP then
          { s with is_tlp := true, byte_counter := 0, fsm := .data }
        else if i.pipe_rx_data = PIPE_K28_2_SDP then
          { s with is_tlp := false, byte_counter := 0, fsm := .data }
        else s
      else s
  | .data =>
      if ! i.pipe_rx_datak then
        { s with
          data_buffer := setByte s.data_buffer s.byte_counter i.pipe_rx_data,
          byte_counter := (s.byte_counter + 1) % 8 }
      else if i.pipe_rx_data = PIPE_K29_7_END then
        { s with fsm := .idle }
      else s

/-- Combinational `source` output of `PIPERXDepacketizer`: the accumulated
packet is presented (with `valid`, `first`, `last`) exactly when the `END`
K-character arrives in the `DATA` state. -/
def RxPktState.sourceOut (s : RxPktState) (i : RxPktInput) : Option Nat :=
  if s.fsm = .data ∧ i.pipe_rx_datak = true ∧ i.pipe_rx_data = PIPE_K29_7_END then
    some s.data_buffer
  else none

/-- Run the depacketizer over a list of symbols, collecting the packets it
delivers on `source`. -/
def RxPktState.runCollect (s : RxPktState) : List RxPktInput → List Nat
  | [] => []
  | i :: rest =>
      match s.sourceOut i with
      | some d => d :: (s.step i).runCollect rest
      | none => (s.step i).runCollect rest

/-- The buffer value accumulated by `n` consecutive data-byte ticks that
store bytes `j, j+1, ...` of `p`. -/
def rxAccum (p : Nat) : Nat → Nat → Nat → Nat
  | buf, _, 0 => buf
  | buf, j, n + 1 => rxAccum p (setByte buf j (txByteSel p j)) (j + 1) n

/-! ## Theorems: PIPE framing round trip -/

lemma setByte_mod (p j : Nat) :
    setByte (p % 2 ^ (8 * j)) j ((p >>> (8 * j)) % 256) = p % 2 ^ (8 * (j + 1)) := by
  have hpos : 0 < (2 : Nat) ^ (8 * j) := pow_pos (by norm_num) _
  have hlt : p % 2 ^ (8 * j) < 2 ^ (8 * j) := Nat.mod_lt _ hpos
  have h1 : p % 2 ^ (8 * j) % 2 ^ (8 * j) = p % 2 ^ (8 * j) := Nat.mod_eq_of_lt hlt
  have h2 : (p % 2 ^ (8 * j)) >>> (8 * (j + 1)) = 0 := by
    rw [Nat.shiftRight_eq_div_pow]
    apply Nat.div_eq_of_lt
    calc p % 2 ^ (8 * j) < 2 ^ (8 * j) := hlt
      _ ≤ 2 ^ (8 * (j + 1)) := Nat.pow_le_pow_right (by norm_num) (by omega)
  have h3 : (2 : Nat) ^ (8 * (j + 1)) = 2 ^ (8 * j) * 256 := by
    rw [show 8 * (j + 1) = 8 * j + 8 by ring, pow_add]
    norm_num
  have h4 : (p >>> (8 * j)) % 256 % 256 = (p >>> (8 * j)) % 256 :=
    Nat.mod_mod_of_dvd _ dvd_rfl
  unfold setByte
  rw [h1, h2, h4, h3, Nat.mod_mul, Nat.shiftRight_eq_div_pow]
  ring

lemma rxAccum_eq (p : Nat) :
    ∀ (n j : Nat), rxAccum p (p % 2 ^ (8 * j)) j n = p % 2 ^ (8 * (j + n)) := by
  intro n
  induction n with
  | zero => intro j; simp [rxAccum]
  | succ n ih =>
    intro j
    show rxAccum p (setByte (p % 2 ^ (8 * j)) j (txByteSel p j)) (j + 1) n = _
    rw [show txByteSel p j = (p >>> (8 * j)) % 256 from rfl, setByte_mod p j, ih (j + 1)]
    congr 2
    ring

lemma rxAccum_full (p : Nat) (hp : p < 2 ^ 64) : rxAccum p 0 0 8 = p := by
  have h := rxAccum_eq p 8 0
  norm_num [Nat.mod_one] at h
  rw [h]
  have hp2 : p < 18446744073709551616 := by norm_num at hp; exact hp
  exact Nat.mod_eq_of_lt hp2

set_option maxHeartbeats 2000000 in
/-- Claim C7: for every 64-bit payload held on `sink` with `valid & first`,
the packetizer emits exactly one start-delimiter control symbol, then the 8
payload bytes least-significant first with the control flag deasserted, then
the `END` control symbol; feeding that symbol stream to the depacketizer
delivers exactly the original payload; and any control symbol other than
`END` arriving while the depacketizer is accumulating leaves its state
unchanged and delivers nothing (transparent filler). -/
theorem C7_frame_deframe_roundtrip (p : Nat) (hp : p < 2 ^ 64) :
    TxPktState.init.runOut
        (List.replicate 10 { valid := true, first := true, dat := p })
      = [(startSymbol p, true),
         (txByteSel p 0, false), (txByteSel p 1, false), (txByteSel p 2, false),
         (txByteSel p 3, false), (txByteSel p 4, false), (txByteSel p 5, false),
         (txByteSel p 6, false), (txByteSel p 7, false),
         (PIPE_K29_7_END, true)] ∧
    RxPktState.init.runCollect
        ((TxPktState.init.runOut
            (List.replicate 10 { valid := true, first := true, dat := p })).map
          (fun y => { pipe_rx_data := y.1, pipe_rx_datak := y.2 }))
      = [p] ∧
    (∀ (s : RxPktState) (i : RxPktInput), s.fsm = .data → i.pipe_rx_datak = true →
      i.pipe_rx_data ≠ PIPE_K29_7_END → s.step i = s ∧ s.sourceOut i = none) := by
  have htx : TxPktState.init.runOut
      (List.replicate 10 { valid := true, first := true, dat := p }) =
      [(startSymbol p, true),
       (txByteSel p 0, false), (txByteSel p 1, false), (txByteSel p 2, false),
       (txByteSel p 3, false), (txByteSel p 4, false), (txByteSel p 5, false),
       (txByteSel p 6, false), (txByteSel p 7, false),
       (PIPE_K29_7_END, true)] := rfl
  refine ⟨htx, ?_, ?_⟩
  · have hr : RxPktState.init.runCollect
        ((TxPktState.init.runOut
            (List.replicate 10 { valid := true, first := true, dat := p })).map
          (fun y => { pipe_rx_data := y.1, pipe_rx_datak := y.2 }))
        = [rxAccum p 0 0 8] := by
      rw [htx]
      cases hdl : isDllp p
      · simp only [startSymbol, hdl, Bool.false_eq_true, if_false]
        rfl
      · simp only [startSymbol, hdl, if_true]
        rfl
    rw [hr, rxAccum_full p hp]
  · intro s i hf hk hne
    constructor
    · simp [RxPktState.step, hf, hk, hne]
    · simp [RxPktState.sourceOut, hne]

set_option maxHeartbeats 2000000 in
/-- Witness for C7 at the concrete payload 5. -/
theorem C7_witness :
    TxPktState.init.runOut
        (List.replicate 10 { valid := true, first := true, dat := 5 })
      = [(startSymbol 5, true),
         (txByteSel 5 0, false), (txByteSel 5 1, false),
         (txByteSel 5 2, false), (txByteSel 5 3, false),
         (txByteSel 5 4, false), (txByteSel 5 5, false),
         (txByteSel 5 6, false), (txByteSel 5 7, false),
         (PIPE_K29_7_END, true)] ∧
    RxPktState.init.runCollect
        ((TxPktState.init.runOut
            (List.replicate 10 { valid := true, first := true, dat := 5 })).map
          (fun y => { pipe_rx_data := y.1, pipe_rx_datak := y.2 }))
      = [5] ∧
    (∀ (s : RxPktState) (i : RxPktInput), s.fsm = .data → i.pipe_rx_datak = true →
      i.pipe_rx_data ≠ PIPE_K29_7_END → s.step i = s ∧ s.sourceOut i = none) :=
  C7_frame_deframe_roundtrip 5 (by norm_num)

/-- Claim C9: on a tick where the packetizer is idle between packets
(`IDLE` state, `sink.valid` deasserted), the interface requests electrical
idle (`pipe_tx_elecidle` is 1) and the symbol register committed for the next
tick is the idle indication `(0x00, K=0)`, not a payload byte; the FSM stays
in `IDLE`. -/
theorem C9_idle_between_packets (s : TxPktState) (i : TxPktInput)
    (hf : s.fsm = .idle) (hv : i.valid = false) :
    pipeTxElecidle i.valid = true ∧
    (s.step i).pipe_tx_data = 0 ∧
    (s.step i).pipe_tx_datak = false ∧
    (s.step i).fsm = .idle := by
  refine ⟨by simp [pipeTxElecidle, hv], ?_, ?_, ?_⟩ <;>
    simp [TxPktState.step, hf, hv]

/-- Witness for C9 at the reset state with an idle input. -/
theorem C9_witness :
    pipeTxElecidle false = true ∧
    (TxPktState.init.step { valid := false, first := false, dat := 0 }).pipe_tx_data
      = 0 ∧
    (TxPktState.init.step { valid := false, first := false, dat := 0 }).pipe_tx_datak
      = false ∧
    (TxPktState.init.step { valid := false, first := false, dat := 0 }).fsm = .idle :=
  C9_idle_between_packets TxPktState.init { valid := false, first := false, dat := 0 }
    rfl rfl

/-! ## DLL RX Path (litepcie/dll/rx.py)

`DLLRX` instantiates a `SequenceNumberManager` (whose `rx_valid`/`rx_seq_num`
it drives combinationally in `CHECK_SEQ`) and an `LCRC32Generator` that the
current FSM never uses: `COMPARE_CRC` performs the simplified pattern check
on the received LCRC instead of recomputing it.
-/

/-- FSM states of `DLLRX`. -/
inductive DllRxFsm where
  | idle | checkLcrc | compareCrc | checkSeq | sendAck | sendNak | forwardTlp
  deriving Repr, DecidableEq

/-- Synchronous registers of `DLLRX` (including its sequence-manager
submodule). -/
structure DllRxState where
  fsm : DllRxFsm
  current_data : Nat
  current_seq : Nat
  current_lcrc : Nat
  calculated_lcrc : Nat
  lcrc_valid : Bool
  seq_valid : Bool
  last_acked_seq : Nat
  debug_lcrc_valid : Bool
  debug_seq_valid : Bool
  seqMgr : SeqMgrState
  deriving Repr, DecidableEq

/-- Reset state of `DLLRX`. -/
def DllRxState.init : DllRxState :=
  { fsm := .idle, current_data := 0, current_seq := 0, current_lcrc := 0
    calculated_lcrc := 0, lcrc_valid := false, seq_valid := false
    last_acked_seq := 0, debug_lcrc_valid := false, debug_seq_valid := false
    seqMgr := SeqMgrState.init }

/-- Input signals of `DLLRX` sampled in one tick: the `phy_sink` endpoint and
the ready signals of the `ack`/`nak`/`tlp` endpoints. -/
structure DllRxInput where
  phy_valid : Bool
  phy_data : Nat
  phy_seq : Nat
  phy_lcrc : Nat
  ack_ready : Bool
  nak_ready : Bool
  tlp_ready : Bool
  deriving Repr, DecidableEq

/-- The simplified `COMPARE_CRC` validation: reject the known bad patterns
`0x00000000`, `0xFFFFFFFF`, `0xBADBADBA`, `0xDEADBEEF`. -/
def lcrcPatternOk (c : Nat) : Bool :=
  decide (c ≠ 0x00000000) && decide (c ≠ 0xFFFFFFFF) &&
  decide (c ≠ 0xBADBADBA) && decide (c ≠ 0xDEADBEEF)

/-- Combinational `phy_sink.ready` (asserted in `IDLE`). -/
def DllRxState.phy_ready (s : DllRxState) : Bool := decide (s.fsm = .idle)

/-- Combinational `ack_source.valid` (asserted in `SEND_ACK`). -/
def DllRxState.ack_valid_out (s : DllRxState) : Bool := decide (s.fsm = .sendAck)

/-- Combinational `ack_source.seq_num` (`current_seq`). -/
def DllRxState.ack_seq_out (s : DllRxState) : Nat := s.current_seq

/-- Combinational `nak_source.valid` (asserted in `SEND_NAK`). -/
def DllRxState.nak_valid_out (s : DllRxState) : Bool := decide (s.fsm = .sendNak)

/-- Combinational `nak_source.seq_num` (`last_acked_seq`). -/
def DllRxState.nak_seq_out (s : DllRxState) : Nat := s.last_acked_seq

/-- Combinational `tlp_source.valid` (asserted in `FORWARD_TLP`). -/
def DllRxState.tlp_valid_out (s : DllRxState) : Bool :=
  decide (s.fsm = .forwardTlp)

/-- Combinational `tlp_source.data` (`current_data`). -/
def DllRxState.tlp_data_out (s : DllRxState) : Nat := s.current_data

/-- One synchronous tick of `DLLRX` (the FSM `act` blocks; in `CHECK_SEQ`
the sequence manager's `rx_valid`/`rx_seq_num` are driven, committing its
`rx_expected` advance at the same edge). -/
def DllRxState.step (s : DllRxState) (i : DllRxInput) : DllRxState :=
  match s.fsm with
  | .idle =>
      if i.phy_valid then
        { s with
          current_data := i.phy_data, current_seq := i.phy_seq,
          current_lcrc := i.phy_lcrc, fsm := .checkLcrc }
      else s
  | .checkLcrc =>
      { s with calculated_lcrc := s.current_lcrc, fsm := .compareCrc }
  | .compareCrc =>
      { s with
        lcrc_valid := lcrcPatternOk s.current_lcrc,
        debug_lcrc_valid := lcrcPatternOk s.current_lcrc, fsm := .checkSeq }
  | .checkSeq =>
      if s.lcrc_valid then
        if s.current_seq = s.seqMgr.rx_expected_seq then
          { s with
            seq_valid := true, debug_seq_valid := true,
            seqMgr := s.seqMgr.step
              { tx_alloc := false, rx_seq_num := s.current_seq, rx_valid := true,
                ack_seq_num := 0, ack_valid := false },
            fsm := .sendAck }
        else
          { s with seq_valid := false, debug_seq_valid := false, fsm := .sendNak }
      else
        { s with seq_valid := false, debug_seq_valid := false, fsm := .sendNak }
  | .sendAck =>
      if i.ack_ready then
        { s with last_acked_seq := s.current_seq, fsm := .forwardTlp }
      else s
  | .sendNak =>
      if i.nak_ready then { s with fsm := .idle } else s
  | .forwardTlp =>
      if i.tlp_ready then { s with fsm := .idle } else s

/-- The per-tick `(ack_valid, nak_valid, tlp_valid)` outputs of `DLLRX` over
an input list (combinational outputs of the state holding during each tick). -/
def DllRxState.outTrace (s : DllRxState) : List DllRxInput → List (Bool × Bool × Bool)
  | [] => []
  | i :: rest =>
      (s.ack_valid_out, s.nak_valid_out, s.tlp_valid_out) :: (s.step i).outTrace rest

/-- A `DLLRX` tick input with no incoming TLP and all downstream endpoints
ready. -/
def dllRxQuiet : DllRxInput :=
  { phy_valid := false, phy_data := 0, phy_seq := 0, phy_lcrc := 0
    ack_ready := true, nak_ready := true, tlp_ready := true }

/-- A `DLLRX` tick input presenting the valid TLP (data `0xABCD`, sequence 0,
LCRC `0x12345678`, which passes the simplified check). -/
def dllRxPkt : DllRxInput :=
  { phy_valid := true, phy_data := 0xABCD, phy_seq := 0, phy_lcrc := 0x12345678
    ack_ready := true, nak_ready := true, tlp_ready := true }

/-- Claim C3, evaluated at the failing input: presenting the same valid TLP
(sequence 0, good LCRC) twice produces one ACK tick, one forwarded-TLP tick,
and then — for the duplicate — one NAK tick and no second ACK, although the
module documentation says duplicates are ACKed and not forwarded.  The trace
lists the `(ack_valid, nak_valid, tlp_valid)` outputs tick by tick. -/
theorem C3_duplicate_is_nakked_not_acked :
    DllRxState.init.outTrace
        [dllRxPkt, dllRxQuiet, dllRxQuiet, dllRxQuiet, dllRxQuiet, dllRxQuiet,
         dllRxPkt, dllRxQuiet, dllRxQuiet, dllRxQuiet, dllRxQuiet]
      = [(false, false, false),  -- IDLE, first packet captured
         (false, false, false),  -- CHECK_LCRC
         (false, false, false),  -- COMPARE_CRC
         (false, false, false),  -- CHECK_SEQ: in order, to SEND_ACK
         (true, false, false),   -- SEND_ACK: first ACK
         (false, false, true),   -- FORWARD_TLP: delivered once
         (false, false, false),  -- IDLE, duplicate captured
         (false, false, false),  -- CHECK_LCRC
         (false, false, false),  -- COMPARE_CRC
         (false, false, false),  -- CHECK_SEQ: seq 0 != expected 1, to SEND_NAK
         (false, true, false)]   -- SEND_NAK: duplicate NAKed, not ACKed
      ∧
    ((DllRxState.init.outTrace
        [dllRxPkt, dllRxQuiet, dllRxQuiet, dllRxQuiet, dllRxQuiet, dllRxQuiet,
         dllRxPkt, dllRxQuiet, dllRxQuiet, dllRxQuiet, dllRxQuiet]).filter
      (fun y => y.1)).length = 1 ∧
    ((DllRxState.init.outTrace
        [dllRxPkt, dllRxQuiet, dllRxQuiet, dllRxQuiet, dllRxQuiet, dllRxQuiet,
         dllRxPkt, dllRxQuiet, dllRxQuiet, dllRxQuiet, dllRxQuiet]).filter
      (fun y => y.2.1)).length = 1 ∧
    ((DllRxState.init.outTrace
        [dllRxPkt, dllRxQuiet, dllRxQuiet, dllRxQuiet, dllRxQuiet, dllRxQuiet,
         dllRxPkt, dllRxQuiet, dllRxQuiet, dllRxQuiet, dllRxQuiet]).filter
      (fun y => y.2.2)).length = 1 := by
  refine ⟨rfl, rfl, rfl, rfl⟩

/-! ## CRC helper functions (litepcie/dll/common.py)

`calculate_dllp_crc16` / `calculate_lcrc32` run an LSB-first bit-serial LFSR:
the CRC state is kept as a bit list (LSB first), and each input bit shifts
the state with feedback applied at the polynomial tap positions.  Python's
`ValueError` on malformed input (wrong length / byte out of range) is
modelled as `none`; bytes are `Nat`, so only the upper bound is checked.
`(byte >> i) & 1` is written `(byte >>> i) % 2`.
-/

/-- `polynom_taps = [bit for bit in range(w) if (1 << bit) & polynomial]`. -/
def crcTaps (w poly : Nat) : List Nat :=
  (List.range w).filter (fun bit => decide (Nat.land (1 <<< bit) poly ≠ 0))

/-- `state = [(crc >> i) & 1 for i in range(w)]`: the seed as a bit list,
LSB first. -/
def crcInitState (w init : Nat) : List Bool :=
  (List.range w).map (fun i => decide ((init >>> i) % 2 = 1))

/-- One LFSR shift for one input bit: `feedback = state[-1] ^ din`;
`new_state = [feedback]`, then for `pos` in `0..w-2`, position `pos+1`
receives `state[pos] ^ feedback` when `pos+1` is a tap, else `state[pos]`. -/
def crcBitStep (w poly : Nat) (state : List Bool) (din : Bool) : List Bool :=
  let feedback := xor (state.getD (state.length - 1) false) din
  feedback :: (List.range (w - 1)).map (fun pos =>
    if (pos + 1) ∈ crcTaps w poly then xor (state.getD pos false) feedback
    else state.getD pos false)

/-- Process the bits of `byte` at the positions in `idxs` (LSB-first order is
`idxs = List.range 8`): `din_bit = (byte >> bit_idx) & 1`. -/
def crcBitsFold (w poly byte : Nat) (idxs : List Nat) (state : List Bool) :
    List Bool :=
  idxs.foldl (fun st idx => crcBitStep w poly st (decide ((byte >>> idx) % 2 = 1)))
    state

/-- Process one byte, bits LSB first (`for bit_idx in range(8)`). -/
def crcByteStep (w poly : Nat) (state : List Bool) (byte : Nat) : List Bool :=
  crcBitsFold w poly byte (List.range 8) state

/-- `crc |= (1 << i)` for every set state bit `i`: read the LSB-first bit
list back as an integer. -/
def bitsToNat : List Bool → Nat
  | [] => 0
  | b :: rest => (if b then 1 else 0) + 2 * bitsToNat rest

/-- `calculate_dllp_crc16(data)`: CRC-16, polynomial `0x100B`, seed `0xFFFF`;
`none` models the `ValueError` on data not exactly 6 bytes or a byte out of
range. -/
def calculate_dllp_crc16 (data : List Nat) : Option Nat :=
  if data.length = 6 ∧ ∀ b ∈ data, b ≤ 255 then
    some (bitsToNat (data.foldl (crcByteStep 16 0x100B) (crcInitState 16 0xFFFF)))
  else none

/-- `verify_dllp_crc16(data, crc)`: recompute and compare. -/
def verify_dllp_crc16 (data : List Nat) (crc : Nat) : Option Bool :=
  (calculate_dllp_crc16 data).map (fun expected => decide (crc = expected))

/-- `calculate_lcrc32(data)`: CRC-32, polynomial `0x04C11DB7`, seed
`0xFFFFFFFF`; `none` models the `ValueError` on empty data or a byte out of
range. -/
def calculate_lcrc32 (data : List Nat) : Option Nat :=
  if data.length ≠ 0 ∧ ∀ b ∈ data, b ≤ 255 then
    some (bitsToNat
      (data.foldl (crcByteStep 32 0x04C11DB7) (crcInitState 32 0xFFFFFFFF)))
  else none

/-- `verify_lcrc32(data, crc)`: recompute and compare. -/
def verify_lcrc32 (data : List Nat) (crc : Nat) : Option Bool :=
  (calculate_lcrc32 data).map (fun expected => decide (crc = expected))

/-! ## Theorems: CRC engines -/

lemma bitsToNat_inj : ∀ (s1 s2 : List Bool), s1.length = s2.length →
    bitsToNat s1 = bitsToNat s2 → s1 = s2 := by
  intro s1
  induction s1 with
  | nil =>
    intro s2 hl _
    cases s2 with
    | nil => rfl
    | cons b2 r2 => simp at hl
  | cons b r ih =>
    intro s2 hl he
    cases s2 with
    | nil => simp at hl
    | cons b2 r2 =>
      simp only [bitsToNat] at he
      have hb : b = b2 := by cases b <;> cases b2 <;> simp at he ⊢ <;> omega
      subst hb
      have hr : bitsToNat r = bitsToNat r2 := by cases b <;> simp at he <;> omega
      rw [ih r2 (by simpa using hl) hr]

lemma crcBitStep_length (w poly : Nat) (hw : 1 ≤ w) (s : List Bool) (d : Bool) :
    (crcBitStep w poly s d).length = w := by
  simp [crcBitStep]
  omega

lemma getD_map_range {α : Type} (n : Nat) (f : Nat → α) (pos : Nat) (h : pos < n)
    (d : α) : ((List.range n).map f).getD pos d = f pos := by
  rw [List.getD_eq_getElem _ _ (by simpa using h)]
  simp

lemma crcBitStep_inj (w poly : Nat) (hw : 1 ≤ w) (s1 s2 : List Bool)
    (h1 : s1.length = w) (h2 : s2.length = w) (d : Bool)
    (he : crcBitStep w poly s1 d = crcBitStep w poly s2 d) : s1 = s2 := by
  unfold crcBitStep at he
  obtain ⟨hfb, htl⟩ := List.cons.inj he
  have hlast : s1.getD (w - 1) false = s2.getD (w - 1) false := by
    rw [h1, h2] at hfb
    exact Bool.xor_right_inj.mp hfb
  have hfb2 : (s1.getD (s1.length - 1) false ^^ d) = (s2.getD (s2.length - 1) false ^^ d) := by
    rw [h1, h2, hlast]
  have hpt : ∀ pos, pos < w - 1 → s1.getD pos false = s2.getD pos false := by
    intro pos hpos
    have hx := congrArg (fun l => l.getD pos false) htl
    simp only [getD_map_range (w - 1) _ pos hpos] at hx
    by_cases htap : (pos + 1) ∈ crcTaps w poly
    · simp only [htap, if_true] at hx
      rw [hfb2] at hx
      exact Bool.xor_right_inj.mp hx
    · simpa [htap] using hx
  apply List.ext_getElem (by omega)
  intro i ha hb
  by_cases hi : i < w - 1
  · have := hpt i hi
    rwa [List.getD_eq_getElem _ _ (by omega), List.getD_eq_getElem _ _ (by omega)]
      at this
  · have hieq : i = w - 1 := by omega
    subst hieq
    have := hlast
    rwa [List.getD_eq_getElem _ _ (by omega), List.getD_eq_getElem _ _ (by omega)]
      at this

lemma crcBitStep_din_ne (w poly : Nat) (s1 s2 : List Bool)
    (hs : s1.getD (s1.length - 1) false = s2.getD (s2.length - 1) false)
    (d1 d2 : Bool) (hd : d1 ≠ d2) :
    crcBitStep w poly s1 d1 ≠ crcBitStep w poly s2 d2 := by
  intro he
  obtain ⟨hfb, _⟩ := List.cons.inj he
  rw [hs] at hfb
  exact hd (Bool.xor_left_inj.mp hfb)

lemma crcBitsFold_length (w poly byte : Nat) (hw : 1 ≤ w) :
    ∀ (idxs : List Nat) (s : List Bool), s.length = w →
      (crcBitsFold w poly byte idxs s).length = w := by
  intro idxs
  induction idxs with
  | nil => intro s hs; exact hs
  | cons idx rest ih =>
    intro s hs
    simp only [crcBitsFold, List.foldl_cons]
    exact ih _ (crcBitStep_length w poly hw s _)

lemma crcBitsFold_inj (w poly byte : Nat) (hw : 1 ≤ w) :
    ∀ (idxs : List Nat) (s1 s2 : List Bool), s1.length = w → s2.length = w →
      crcBitsFold w poly byte idxs s1 = crcBitsFold w poly byte idxs s2 →
      s1 = s2 := by
  intro idxs
  induction idxs with
  | nil => intro s1 s2 _ _ he; exact he
  | cons idx rest ih =>
    intro s1 s2 h1 h2 he
    simp only [crcBitsFold, List.foldl_cons] at he
    have := ih _ _ (crcBitStep_length w poly hw s1 _)
      (crcBitStep_length w poly hw s2 _) he
    exact crcBitStep_inj w poly hw s1 s2 h1 h2 _ this

lemma crcBitsFold_congr (w poly x y : Nat) :
    ∀ (idxs : List Nat),
      (∀ i ∈ idxs, decide ((x >>> i) % 2 = 1) = decide ((y >>> i) % 2 = 1)) →
      ∀ s, crcBitsFold w poly x idxs s = crcBitsFold w poly y idxs s := by
  intro idxs
  induction idxs with
  | nil => intro _ s; rfl
  | cons idx rest ih =>
    intro hb s
    simp only [crcBitsFold, List.foldl_cons]
    rw [hb idx (by simp)]
    exact ih (fun i hi => hb i (by simp [hi])) _

lemma crcDin_eq_testBit (x i : Nat) :
    decide ((x >>> i) % 2 = 1) = x.testBit i := by
  rw [Nat.testBit_to_div_mod, Nat.shiftRight_eq_div_pow]

lemma crcFlip_bit_other (b k i : Nat) (h : i ≠ k) :
    decide (((b ^^^ 2 ^ k) >>> i) % 2 = 1) = decide ((b >>> i) % 2 = 1) := by
  rw [crcDin_eq_testBit, crcDin_eq_testBit, Nat.testBit_xor, Nat.testBit_two_pow]
  have hd : decide (k = i) = false := decide_eq_false (fun hx => h hx.symm)
  rw [hd]
  simp

lemma crcFlip_bit_same (b k : Nat) :
    decide (((b ^^^ 2 ^ k) >>> k) % 2 = 1) ≠ decide ((b >>> k) % 2 = 1) := by
  rw [crcDin_eq_testBit, crcDin_eq_testBit, Nat.testBit_xor, Nat.testBit_two_pow]
  cases b.testBit k <;> simp

lemma crcBitsFold_flip_ne (w poly : Nat) (hw : 1 ≤ w) (b k : Nat) :
    ∀ (idxs : List Nat), idxs.Nodup → k ∈ idxs →
      ∀ s : List Bool, s.length = w →
      crcBitsFold w poly (b ^^^ 2 ^ k) idxs s ≠ crcBitsFold w poly b idxs s := by
  intro idxs
  induction idxs with
  | nil => intro _ hk; simp at hk
  | cons idx rest ih =>
    intro hnd hk s hs
    by_cases hik : idx = k
    · subst hik
      have hnotmem : idx ∉ rest := (List.nodup_cons.mp hnd).1
      have hne1 : crcBitStep w poly s (decide (((b ^^^ 2 ^ idx) >>> idx) % 2 = 1))
          ≠ crcBitStep w poly s (decide ((b >>> idx) % 2 = 1)) :=
        crcBitStep_din_ne w poly s s rfl _ _ (crcFlip_bit_same b idx)
      simp only [crcBitsFold, List.foldl_cons]
      rw [show ∀ t, (rest.foldl (fun st i =>
            crcBitStep w poly st (decide (((b ^^^ 2 ^ idx) >>> i) % 2 = 1))) t)
          = crcBitsFold w poly b rest t from
        fun t => crcBitsFold_congr w poly (b ^^^ 2 ^ idx) b rest
          (fun i hi => crcFlip_bit_other b idx i (fun h => hnotmem (h ▸ hi))) t]
      intro he
      exact hne1 (crcBitsFold_inj w poly b hw rest _ _
        (crcBitStep_length w poly hw s _) (crcBitStep_length w poly hw s _) he)
    · have hkr : k ∈ rest := by
        rcases List.mem_cons.mp hk with h | h
        · exact absurd h.symm hik
        · exact h
      simp only [crcBitsFold, List.foldl_cons,
        crcFlip_bit_other b k idx (fun h => hik h)]
      exact ih (List.nodup_cons.mp hnd).2 hkr _ (crcBitStep_length w poly hw s _)

lemma crcBytesFold_length (w poly : Nat) (hw : 1 ≤ w) :
    ∀ (data : List Nat) (s : List Bool), s.length = w →
      (data.foldl (crcByteStep w poly) s).length = w := by
  intro data
  induction data with
  | nil => intro s hs; exact hs
  | cons b rest ih =>
    intro s hs
    simp only [List.foldl_cons]
    exact ih _ (crcBitsFold_length w poly b hw _ s hs)

lemma crcBytesFold_inj (w poly : Nat) (hw : 1 ≤ w) :
    ∀ (data : List Nat) (s1 s2 : List Bool), s1.length = w → s2.length = w →
      data.foldl (crcByteStep w poly) s1 = data.foldl (crcByteStep w poly) s2 →
      s1 = s2 := by
  intro data
  induction data with
  | nil => intro s1 s2 _ _ he; exact he
  | cons b rest ih =>
    intro s1 s2 h1 h2 he
    simp only [List.foldl_cons] at he
    have := ih _ _ (crcBitsFold_length w poly b hw _ s1 h1)
      (crcBitsFold_length w poly b hw _ s2 h2) he
    exact crcBitsFold_inj w poly b hw _ s1 s2 h1 h2 this

lemma crcByteStep_flip_ne (w poly : Nat) (hw : 1 ≤ w) (s : List Bool)
    (hs : s.length = w) (b k : Nat) (hk : k < 8) :
    crcByteStep w poly s (b ^^^ 2 ^ k) ≠ crcByteStep w poly s b :=
  crcBitsFold_flip_ne w poly hw b k (List.range 8) (List.nodup_range 8)
    (List.mem_range.mpr hk) s hs

lemma crcRun_flip_ne (w poly : Nat) (hw : 1 ≤ w) :
    ∀ (data : List Nat) (j : Nat), j < data.length → ∀ k, k < 8 →
      ∀ s : List Bool, s.length = w →
      (data.set j ((data.getD j 0) ^^^ 2 ^ k)).foldl (crcByteStep w poly) s
        ≠ data.foldl (crcByteStep w poly) s := by
  intro data
  induction data with
  | nil => intro j hj; simp at hj
  | cons b rest ih =>
    intro j hj k hk s hs
    cases j with
    | zero =>
      simp only [List.getD_cons_zero, List.set_cons_zero, List.foldl_cons]
      intro he
      exact crcByteStep_flip_ne w poly hw s hs b k hk
        (crcBytesFold_inj w poly hw rest _ _
          (crcBitsFold_length w poly _ hw _ s hs)
          (crcBitsFold_length w poly _ hw _ s hs) he)
    | succ j =>
      simp only [List.getD_cons_succ, List.set_cons_succ, List.foldl_cons]
      exact ih j (by simpa using hj) k hk _ (crcBitsFold_length w poly b hw _ s hs)

lemma crcInitState_length (w init : Nat) : (crcInitState w init).length = w := by
  simp [crcInitState]

lemma crc_calc_flip_ne (w poly init : Nat) (hw : 1 ≤ w) (data : List Nat)
    (j k : Nat) (hj : j < data.length) (hk : k < 8) :
    bitsToNat ((data.set j ((data.getD j 0) ^^^ 2 ^ k)).foldl
        (crcByteStep w poly) (crcInitState w init))
      ≠ bitsToNat (data.foldl (crcByteStep w poly) (crcInitState w init)) := by
  intro he
  have h1 := crcBytesFold_length w poly hw (data.set j ((data.getD j 0) ^^^ 2 ^ k))
    (crcInitState w init) (crcInitState_length w init)
  have h2 := crcBytesFold_length w poly hw data (crcInitState w init)
    (crcInitState_length w init)
  exact crcRun_flip_ne w poly hw data j hj k hk (crcInitState w init)
    (crcInitState_length w init)
    (bitsToNat_inj _ _ (by rw [h1, h2]) he)

lemma xor_two_pow_ne (c k : Nat) : c ^^^ 2 ^ k ≠ c := by
  intro h
  have h2 : c ^^^ (c ^^^ 2 ^ k) = c ^^^ c := congrArg (c ^^^ ·) h
  rw [← Nat.xor_assoc, Nat.xor_self, Nat.zero_xor] at h2
  exact absurd h2 (Nat.pos_iff_ne_zero.mp (Nat.two_pow_pos k))

/-- Claim C1: for every accepted input (exactly 6 bytes for CRC-16, non-empty
for CRC-32, bytes 0-255), verifying the computed CRC succeeds, and flipping
any single bit of the CRC value or of any data byte makes verification fail. -/
theorem C1_crc_verify_and_single_bit_flip
    (d16 : List Nat) (h6 : d16.length = 6) (hb16 : ∀ b ∈ d16, b ≤ 255)
    (d32 : List Nat) (h32 : d32.length ≠ 0) (hb32 : ∀ b ∈ d32, b ≤ 255) :
    (∀ c, calculate_dllp_crc16 d16 = some c →
      verify_dllp_crc16 d16 c = some true ∧
      (∀ k, k < 16 → verify_dllp_crc16 d16 (c ^^^ 2 ^ k) = some false) ∧
      (∀ j k, j < 6 → k < 8 →
        verify_dllp_crc16 (d16.set j ((d16.getD j 0) ^^^ 2 ^ k)) c = some false)) ∧
    (∀ c, calculate_lcrc32 d32 = some c →
      verify_lcrc32 d32 c = some true ∧
      (∀ k, k < 32 → verify_lcrc32 d32 (c ^^^ 2 ^ k) = some false) ∧
      (∀ j k, j < d32.length → k < 8 →
        verify_lcrc32 (d32.set j ((d32.getD j 0) ^^^ 2 ^ k)) c = some false)) := by
  constructor
  · intro c hc
    have hguard : d16.length = 6 ∧ ∀ b ∈ d16, b ≤ 255 := ⟨h6, hb16⟩
    unfold calculate_dllp_crc16 at hc
    rw [if_pos hguard] at hc
    have hceq := Option.some.inj hc
    refine ⟨?_, ?_, ?_⟩
    · unfold verify_dllp_crc16 calculate_dllp_crc16
      rw [if_pos hguard]
      simp only [Option.map_some']
      rw [hceq]
      simp
    · intro k hk
      unfold verify_dllp_crc16 calculate_dllp_crc16
      rw [if_pos hguard]
      simp only [Option.map_some']
      rw [hceq]
      simp [xor_two_pow_ne c k]
    · intro j k hj hk
      have hjlen : j < d16.length := by omega
      have hmem : d16.getD j 0 ∈ d16 := by
        rw [List.getD_eq_getElem _ _ hjlen]
        exact List.getElem_mem _
      have hvb : ∀ x ∈ d16.set j ((d16.getD j 0) ^^^ 2 ^ k), x ≤ 255 := by
        intro x hx
        rcases List.mem_or_eq_of_mem_set hx with hx1 | hx2
        · exact hb16 x hx1
        · have h1 : d16.getD j 0 < 2 ^ 8 :=
            lt_of_le_of_lt (hb16 _ hmem) (by norm_num)
          have h2 : (2 : Nat) ^ k < 2 ^ 8 := Nat.pow_lt_pow_right (by norm_num) hk
          have h3 : d16.getD j 0 ^^^ 2 ^ k < 256 := by
            rw [show (256 : Nat) = 2 ^ 8 by norm_num]
            exact Nat.xor_lt_two_pow h1 h2
          rw [hx2]
          omega
      have hguard2 : (d16.set j ((d16.getD j 0) ^^^ 2 ^ k)).length = 6 ∧
          ∀ b ∈ d16.set j ((d16.getD j 0) ^^^ 2 ^ k), b ≤ 255 := ⟨by simp [h6], hvb⟩
      unfold verify_dllp_crc16 calculate_dllp_crc16
      rw [if_pos hguard2]
      simp only [Option.map_some']
      rw [← hceq]
      have hne := crc_calc_flip_ne 16 0x100B 0xFFFF (by norm_num) d16 j k hjlen hk
      rw [decide_eq_false (fun h => hne h.symm)]
  · intro c hc
    have hguard : d32.length ≠ 0 ∧ ∀ b ∈ d32, b ≤ 255 := ⟨h32, hb32⟩
    unfold calculate_lcrc32 at hc
    rw [if_pos hguard] at hc
    have hceq := Option.some.inj hc
    refine ⟨?_, ?_, ?_⟩
    · unfold verify_lcrc32 calculate_lcrc32
      rw [if_pos hguard]
      simp only [Option.map_some']
      rw [hceq]
      simp
    · intro k hk
      unfold verify_lcrc32 calculate_lcrc32
      rw [if_pos hguard]
      simp only [Option.map_some']
      rw [hceq]
      simp [xor_two_pow_ne c k]
    · intro j k hj hk
      have hmem : d32.getD j 0 ∈ d32 := by
        rw [List.getD_eq_getElem _ _ hj]
        exact List.getElem_mem _
      have hvb : ∀ x ∈ d32.set j ((d32.getD j 0) ^^^ 2 ^ k), x ≤ 255 := by
        intro x hx
        rcases List.mem_or_eq_of_mem_set hx with hx1 | hx2
        · exact hb32 x hx1
        · have h1 : d32.getD j 0 < 2 ^ 8 :=
            lt_of_le_of_lt (hb32 _ hmem) (by norm_num)
          have h2 : (2 : Nat) ^ k < 2 ^ 8 := Nat.pow_lt_pow_right (by norm_num) hk
          have h3 : d32.getD j 0 ^^^ 2 ^ k < 256 := by
            rw [show (256 : Nat) = 2 ^ 8 by norm_num]
            exact Nat.xor_lt_two_pow h1 h2
          rw [hx2]
          omega
      have hguard2 : (d32.set j ((d32.getD j 0) ^^^ 2 ^ k)).length ≠ 0 ∧
          ∀ b ∈ d32.set j ((d32.getD j 0) ^^^ 2 ^ k), b ≤ 255 := ⟨by simpa using h32, hvb⟩
      unfold verify_lcrc32 calculate_lcrc32
      rw [if_pos hguard2]
      simp only [Option.map_some']
      rw [← hceq]
      have hne := crc_calc_flip_ne 32 0x04C11DB7 0xFFFFFFFF (by norm_num) d32 j k hj hk
      rw [decide_eq_false (fun h => hne h.symm)]

set_option maxHeartbeats 2000000 in
/-- Witness for C1 at the 6-byte ACK DLLP body [0, 42, 0, 0, 0, 0] and the
4-byte TLP [0xDE, 0xAD, 0xBE, 0xEF]. -/
theorem C1_witness :
    (∀ c, calculate_dllp_crc16 [0, 42, 0, 0, 0, 0] = some c →
      verify_dllp_crc16 [0, 42, 0, 0, 0, 0] c = some true ∧
      (∀ k, k < 16 →
        verify_dllp_crc16 [0, 42, 0, 0, 0, 0] (c ^^^ 2 ^ k) = some false) ∧
      (∀ j k, j < 6 → k < 8 →
        verify_dllp_crc16
          (([0, 42, 0, 0, 0, 0] : List Nat).set j
            ((([0, 42, 0, 0, 0, 0] : List Nat).getD j 0) ^^^ 2 ^ k)) c
          = some false)) ∧
    (∀ c, calculate_lcrc32 [0xDE, 0xAD, 0xBE, 0xEF] = some c →
      verify_lcrc32 [0xDE, 0xAD, 0xBE, 0xEF] c = some true ∧
      (∀ k, k < 32 →
        verify_lcrc32 [0xDE, 0xAD, 0xBE, 0xEF] (c ^^^ 2 ^ k) = some false) ∧
      (∀ j k, j < ([0xDE, 0xAD, 0xBE, 0xEF] : List Nat).length → k < 8 →
        verify_lcrc32
          (([0xDE, 0xAD, 0xBE, 0xEF] : List Nat).set j
            ((([0xDE, 0xAD, 0xBE, 0xEF] : List Nat).getD j 0) ^^^ 2 ^ k)) c
          = some false)) :=
  C1_crc_verify_and_single_bit_flip [0, 42, 0, 0, 0, 0] (by decide) (by decide)
    [0xDE, 0xAD, 0xBE, 0xEF] (by decide) (by decide)

end LitePCIeDLL
